import Mathlib

/-!
Shallow embedding of the HackTVLive transmitter (NTSC/PAL composite-video
synthesizer and HackRF TX streamer) and of the rtl_tv receiver (AM envelope
decoder with H-sync PLL and V-sync state machine).

Go float64 arithmetic is modelled over ℚ (exact rationals); every place the
source converts a float to an integer with a Go conversion such as int(x) or
int8(x) is modelled by truncation toward zero (goTrunc below), which is the
Go semantics for in-range values.  All derived sample-count constants were
checked to take the same value under IEEE-754 double arithmetic as under
exact rational arithmetic, so the ℚ model is faithful at the sample rates
used here.  math.Sin / math.Cos values are abstracted as oracle functions of
the global sample index, constrained to [-1, 1] where a claim needs it.
-/

namespace HackTV

section RatEval

/- The Batteries rational operations are marked irreducible, which keeps
`decide` from evaluating concrete rational arithmetic; the proofs below
evaluate the embedded program on concrete inputs, so reduction is
re-enabled for this file. -/
attribute [local semireducible] Rat.add Rat.mul Rat.sub Rat.inv Rat.ofScientific

/-- Go conversion of a float to an integer type truncates toward zero
(for in-range values): floor for non-negatives, -floor(-q) otherwise. -/
def goTrunc (q : ℚ) : ℤ := if q < 0 then -(⌊-q⌋) else ⌊q⌋

/-- Go conversion to a non-negative integer (byte) after the source has
clamped the value into [0,255]. -/
def goByte (q : ℚ) : ℕ := (goTrunc q).toNat

/-- src/hacktvlive/video/ntsc.go, IreToAmplitude:
`((ire - 100.0) / -140.0) * (1.0 - 0.125) + 0.125`. -/
def ntscIreToAmplitude (ire : ℚ) : ℚ :=
  ((ire - 100) / (-140)) * (1 - 0.125) + 0.125

/-- src/hacktvlive/video/pal.go, IreToAmplitude (textually the same
formula as the NTSC one). -/
def palIreToAmplitude (ire : ℚ) : ℚ :=
  ((ire - 100) / (-140)) * (1 - 0.125) + 0.125

/-- The I sample the TX callback emits for one composite sample:
`int8(amplitude * 127.0)` — a Go float→int8 conversion, i.e. truncation
toward zero (the relevant amplitudes keep the product inside int8 range). -/
def txI (amp : ℚ → ℚ) (ire : ℚ) : ℤ := goTrunc (amp ire * 127)

/-- Modelled from the spec: the spec (§4.2, §8 scenario 3) states the i8
encoding of amplitude `a` is `round(a·127)`.  The source truncates instead;
this definition follows the spec words (round half up) for comparison. -/
def txISpec (amp : ℚ → ℚ) (ire : ℚ) : ℤ := goTrunc (amp ire * 127 + 1/2)

/-- The StartTX callback loop (src/unnamed/part_001 Transmit, both
variants, and src/unnamed/part_000 main): for each of the N sample slots
of a 2N-byte buffer, read `ire = frameBuf[sampleCounter]`, emit the pair
(int8(amplitude*127), 0), then advance the cursor and wrap it at the
frame length.  Emitted pairs are listed in order; the second component of
the result is the final cursor. -/
def txLoop (amp : ℚ → ℚ) (fb : List ℚ) (c : ℕ) : ℕ → List (ℤ × ℤ) × ℕ
  | 0 => ([], c)
  | N + 1 =>
    let ire := fb.getD c 0
    let p : ℤ × ℤ := (txI amp ire, 0)
    let c2 := if c + 1 ≥ fb.length then 0 else c + 1
    let r := txLoop amp fb c2 N
    (p :: r.1, r.2)

/-! ## NTSC synthesizer (src/hacktvlive/video/ntsc.go) at the fixed
8 Msps sample rate (src/hacktvlive/config FixedSampleRate). -/

def FrameWidth : ℕ := 540

def FrameHeight : ℕ := 480

def txSampleRate : ℚ := 8000000

def ntscFrameRate : ℚ := 30000 / 1001

def ntscLinesPerFrame : ℕ := 525

def ntscLevelSync : ℚ := -40

def ntscLevelBlanking : ℚ := 0

def ntscLevelBlack : ℚ := 7.5

def ntscLevelWhite : ℚ := 100

def ntscBurstAmplitude : ℚ := 20

/-- Derived as `lineSamples = int(lineDuration * sampleRate)` with
`lineDuration = 1/(frameRate*525)`; equals 508 at 8 Msps. -/
def ntscLineSamples : ℕ := (goTrunc ((1 / (ntscFrameRate * 525)) * txSampleRate)).toNat

def ntscHSyncSamples : ℕ := (goTrunc (4.7e-6 * txSampleRate)).toNat

def ntscVSyncPulseSamples : ℕ := (goTrunc (27.1e-6 * txSampleRate)).toNat

def ntscEqPulseSamples : ℕ := (goTrunc (2.3e-6 * txSampleRate)).toNat

def ntscBurstStartSamples : ℕ := (goTrunc (5.6e-6 * txSampleRate)).toNat

def ntscBurstEndSamples : ℕ := ntscBurstStartSamples + (goTrunc (2.5e-6 * txSampleRate)).toNat

def ntscActiveStartSamples : ℕ := (goTrunc (10.7e-6 * txSampleRate)).toNat

def ntscActiveSamples : ℕ := (goTrunc (52.6e-6 * txSampleRate)).toNat

/-- The interlaced raster row computed at the top of getPixelYIQ:
top field for lines 22..263, bottom field for 285..525, otherwise the
initial value 0. -/
def ntscVideoLine (currentLine : ℕ) : ℤ :=
  if 22 ≤ currentLine ∧ currentLine ≤ 263 then ((currentLine : ℤ) - 22) * 2
  else if 285 ≤ currentLine ∧ currentLine ≤ 525 then ((currentLine : ℤ) - 285) * 2 + 1
  else 0

/-- The horizontal pixel coordinate computed in getPixelYIQ:
`int(float64(sampleInLine − activeStartSamples)/float64(activeSamples)·W)`. -/
def ntscPixelX (sampleInLine : ℕ) : ℤ :=
  goTrunc ((((sampleInLine : ℤ) - (ntscActiveStartSamples : ℤ) : ℤ) : ℚ) /
    (ntscActiveSamples : ℚ) * FrameWidth)

/-- getPixelYIQ: interlaced raster mapping, pixel fetch and YIQ color
conversion.  `rgb` is the raw RGB24 frame buffer as a byte-index → value
map (indices are integers so that the bounds check mirrors the source). -/
def getPixelYIQ (rgb : ℤ → ℚ) (currentLine sampleInLine : ℕ) : ℚ × ℚ × ℚ :=
  let videoLine : ℤ := ntscVideoLine currentLine
  let pixelX : ℤ := ntscPixelX sampleInLine
  if videoLine < 0 ∨ (FrameHeight : ℤ) ≤ videoLine ∨ pixelX < 0 ∨ (FrameWidth : ℤ) ≤ pixelX then
    (ntscLevelBlack, 0, 0)
  else
    let pixelIndex : ℤ := (videoLine * FrameWidth + pixelX) * 3
    let r := rgb pixelIndex
    let g := rgb (pixelIndex + 1)
    let b := rgb (pixelIndex + 2)
    let yVal := 0.299 * r + 0.587 * g + 0.114 * b
    let iVal := 0.596 * r - 0.274 * g - 0.322 * b
    let qVal := 0.211 * r - 0.523 * g + 0.312 * b
    (ntscLevelBlack + yVal / 255 * (ntscLevelWhite - ntscLevelBlack),
     iVal / 255 * (ntscLevelWhite - ntscLevelBlack),
     qVal / 255 * (ntscLevelWhite - ntscLevelBlack))

/-- generateLumaLine as a sample-index → value map.  The source fills the
line with levelBlanking, then overwrites sync / equalizing / vertical
pulses or (for non-VBI lines) the H-sync pulse and the active luminance;
the H-sync region [0,37) and the active region [85,505) are disjoint, so
the write order reduces to this branch priority. -/
def ntscLumaLine (rgb : ℤ → ℚ) (currentLine s : ℕ) : ℚ :=
  let lineInField :=
    if currentLine > ntscLinesPerFrame / 2 then currentLine - ntscLinesPerFrame / 2
    else currentLine
  let halfLine := ntscLineSamples / 2
  if (1 ≤ lineInField ∧ lineInField ≤ 3) ∨ (7 ≤ lineInField ∧ lineInField ≤ 9) then
    if s < ntscEqPulseSamples ∨ (halfLine ≤ s ∧ s < halfLine + ntscEqPulseSamples) then
      ntscLevelSync
    else ntscLevelBlanking
  else if 4 ≤ lineInField ∧ lineInField ≤ 6 then
    if s < ntscVSyncPulseSamples ∨ (halfLine ≤ s ∧ s < halfLine + ntscVSyncPulseSamples) then
      ntscLevelSync
    else ntscLevelBlanking
  else if ¬ lineInField ≤ 21 ∧ ntscActiveStartSamples ≤ s ∧ s < ntscActiveStartSamples + ntscActiveSamples then
    (getPixelYIQ rgb currentLine s).1
  else if s < ntscHSyncSamples then ntscLevelSync
  else ntscLevelBlanking

/-- Frame-level VBI test of GenerateFullFrame:
`(line >= 1 && line <= 21) || (line >= 264 && line <= 284)`. -/
def ntscIsVBIFrame (line : ℕ) : Prop :=
  (1 ≤ line ∧ line ≤ 21) ∨ (264 ≤ line ∧ line ≤ 284)

instance (line : ℕ) : Decidable (ntscIsVBIFrame line) := by
  unfold ntscIsVBIFrame; infer_instance

/-- One sample of the composite frame produced by GenerateFullFrame.
The subcarrier phase at line L, sample s is ((L-1)*lineSamples + s) times
the (irrational) phase increment 2π·fsc/sampleRate; the values of
math.Cos(phase), math.Sin(phase) and math.Sin(phase+π) are abstracted as
the oracles `ocos`, `osin`, `oburst` applied to the global sample index.
VBI lines only advance the phase; non-VBI lines add the burst in
[burstStart,burstEnd) and the chroma product in the active region. -/
def ntscSample (ocos osin oburst : ℕ → ℚ) (rgb : ℤ → ℚ) (line s : ℕ) : ℚ :=
  let idx := (line - 1) * ntscLineSamples + s
  ntscLumaLine rgb line s +
    (if ntscIsVBIFrame line then 0
     else if ntscBurstStartSamples ≤ s ∧ s < ntscBurstEndSamples then
       ntscBurstAmplitude * oburst idx
     else if ntscActiveStartSamples ≤ s ∧ s < ntscActiveStartSamples + ntscActiveSamples then
       (getPixelYIQ rgb line s).2.1 * ocos idx + (getPixelYIQ rgb line s).2.2 * osin idx
     else 0)

/-- A concrete admissible trig oracle (used by closed counterexamples and
witnesses; at the samples involved the chroma coefficients vanish, so the
sample value is the same for every oracle, in particular for the true
sine and cosine). -/
def zeroOracle : ℕ → ℚ := fun _ => 0

/-- The all-zero (black) RGB frame; every byte is 0 ∈ [0,255] and every
pixel is grayscale. -/
def rgbZero : ℤ → ℚ := fun _ => 0

/-! ## PAL synthesizer (src/hacktvlive/video/pal.go) at 8 Msps. -/

def palLinesPerFrame : ℕ := 625

def palActiveVideoLines : ℕ := 576

def palLevelSync : ℚ := -40

def palLevelBlanking : ℚ := 0

def palLevelBlack : ℚ := 0

def palLevelWhite : ℚ := 100

/-- Derived as `lineSamples = int((1/(25*625)) * sampleRate)`; equals 512
at 8 Msps. -/
def palLineSamples : ℕ := (goTrunc ((1 / ((25 : ℚ) * 625)) * txSampleRate)).toNat

def palHSyncSamples : ℕ := (goTrunc (4.7e-6 * txSampleRate)).toNat

def palActiveStartSamples : ℕ := (goTrunc (10.5e-6 * txSampleRate)).toNat

def palActiveSamples : ℕ := (goTrunc (52.0e-6 * txSampleRate)).toNat

/-- PAL VBI test used by generateLumaLine and GenerateFullFrame:
`(currentLine >= 624 || currentLine <= 23) || (currentLine >= 311 && currentLine <= 336)`. -/
def palIsVBI (line : ℕ) : Prop :=
  (624 ≤ line ∨ line ≤ 23) ∨ (311 ≤ line ∧ line ≤ 336)

instance (line : ℕ) : Decidable (palIsVBI line) := by
  unfold palIsVBI; infer_instance

/-- The PAL raster row: first field for lines 24..310, second field for
337..623 (offset by activeVideoLines/2). -/
def palVideoLine (currentLine : ℕ) : ℤ :=
  if 24 ≤ currentLine ∧ currentLine ≤ 310 then (currentLine : ℤ) - 24
  else (currentLine : ℤ) - 337 + ((palActiveVideoLines / 2 : ℕ) : ℤ)

/-- The PAL horizontal pixel coordinate. -/
def palPixelX (sampleInLine : ℕ) : ℤ :=
  goTrunc ((((sampleInLine : ℤ) - (palActiveStartSamples : ℤ) : ℤ) : ℚ) /
    (palActiveSamples : ℚ) * FrameWidth)

/-- getPixelYUV: PAL raster mapping, pixel fetch and YUV conversion
(with the 0.493/0.877 chroma scaling of the source). -/
def getPixelYUV (rgb : ℤ → ℚ) (currentLine sampleInLine : ℕ) : ℚ × ℚ × ℚ :=
  if (24 ≤ currentLine ∧ currentLine ≤ 310) ∨ (337 ≤ currentLine ∧ currentLine ≤ 623) then
    let videoLine : ℤ := palVideoLine currentLine
    let pixelX : ℤ := palPixelX sampleInLine
    if videoLine < 0 ∨ (FrameHeight : ℤ) ≤ videoLine ∨ pixelX < 0 ∨ (FrameWidth : ℤ) ≤ pixelX then
      (palLevelBlack, 0, 0)
    else
      let pixelIndex : ℤ := (videoLine * FrameWidth + pixelX) * 3
      let r := rgb pixelIndex
      let g := rgb (pixelIndex + 1)
      let b := rgb (pixelIndex + 2)
      let yVal := 0.299 * r + 0.587 * g + 0.114 * b
      let uVal := -0.147 * r - 0.289 * g + 0.436 * b
      let vVal := 0.615 * r - 0.515 * g - 0.100 * b
      (palLevelBlack + yVal / 255 * (palLevelWhite - palLevelBlack),
       uVal / 255 * (palLevelWhite - palLevelBlack) * 0.493,
       vVal / 255 * (palLevelWhite - palLevelBlack) * 0.877)
  else (palLevelBlack, 0, 0)

/-- PAL generateLumaLine as a sample-index → value map.  Write order in
the source: blanking fill, H-sync pulse [0,hSyncSamples), the half-line
pulse [lineSamples/2, lineSamples/2+hSyncSamples) on lines {1,2,313,314},
then (non-VBI lines) active luminance; the active region [84,500) is
written last and the first two pulse regions are disjoint, giving this
branch priority. -/
def palLumaLine (rgb : ℤ → ℚ) (currentLine s : ℕ) : ℚ :=
  let halfLine := palLineSamples / 2
  if ¬ palIsVBI currentLine ∧
      palActiveStartSamples ≤ s ∧ s < palActiveStartSamples + palActiveSamples then
    (getPixelYUV rgb currentLine s).1
  else if ((1 ≤ currentLine ∧ currentLine ≤ 2) ∨ (313 ≤ currentLine ∧ currentLine ≤ 314)) ∧
      halfLine ≤ s ∧ s < halfLine + palHSyncSamples then
    palLevelSync
  else if s < palHSyncSamples then palLevelSync
  else palLevelBlanking

/-! ## Receiver decoder (src/rtl_tv/decoder/decoder.go).

Constants from src/rtl_tv config: FrameWidth 540, FrameHeight 480,
FrameRate 30000/1001, LinesPerFrame 525, HsyncDurationMicroseconds 4.7,
FrontPorchMicroseconds 1.5, ActiveVideoMicroseconds 52.6.  The sample
rate is a parameter (bw·1e6 from the CLI).  `math.Sqrt` magnitudes are
abstracted: the per-sample functions take the demodulated magnitude
stream as a list of rationals, which covers every possible I/Q input. -/

/-- V-sync state machine states. -/
inductive VSyncState where
  | SearchVSync : VSyncState
  | InVSync : VSyncState
deriving DecidableEq

/-- The per-buffer working levels derived from the AGC state at the top
of ProcessIQ. -/
structure Levels where
  syncThreshold : ℚ
  blackLevel : ℚ
  levelCoeff : ℚ
deriving DecidableEq

/-- The Decoder struct.  The two pixel buffers (length W·H·3 in the
source) are byte-index → value maps. -/
structure DecState where
  x : ℕ
  y : ℕ
  pixelCounter : ℕ
  smoothedMax : ℚ
  smoothedMin : ℚ
  hSyncPulseWidth : ℕ
  syncSearchWindow : ℕ
  lineStartActiveVideo : ℕ
  lineEndActiveVideo : ℕ
  sampleRate : ℚ
  initialSamplesPerLine : ℚ
  samplesPerLine : ℚ
  hSyncErrorAccumulator : ℚ
  vSyncState : VSyncState
  vSyncSerrationCounter : ℕ
  frameBuffer : ℕ → ℕ
  displayBuffer : ℕ → ℕ

/-- decoder.New: all derived constants, zeroed buffers, initial AGC. -/
def DecState.new (sampleRate : ℚ) : DecState :=
  let initialSamplesPerLine := (1 / ((30000 / 1001 : ℚ) * 525)) * sampleRate
  { x := 0
    y := 0
    pixelCounter := 0
    smoothedMax := 128
    smoothedMin := 0
    hSyncPulseWidth := (goTrunc (4.7e-6 * sampleRate)).toNat
    syncSearchWindow := (goTrunc (initialSamplesPerLine * 0.20)).toNat
    lineStartActiveVideo := (goTrunc ((4.7 + 1.5) * 1e-6 * sampleRate)).toNat
    lineEndActiveVideo := (goTrunc ((4.7 + 1.5) * 1e-6 * sampleRate)).toNat +
      (goTrunc (52.6e-6 * sampleRate)).toNat
    sampleRate := sampleRate
    initialSamplesPerLine := initialSamplesPerLine
    samplesPerLine := initialSamplesPerLine
    hSyncErrorAccumulator := 0
    vSyncState := .SearchVSync
    vSyncSerrationCounter := 0
    frameBuffer := fun _ => 0
    displayBuffer := fun _ => 0 }

/-- One pixel write: the source stores the same brightness byte at
pixelIndex, pixelIndex+1 and pixelIndex+2. -/
def update3 (f : ℕ → ℕ) (base v : ℕ) : ℕ → ℕ :=
  fun k => if k = base ∨ k = base + 1 ∨ k = base + 2 then v else f k

/-- A recorded frame-buffer write: (raster row y, pixel column, byte). -/
abbrev Write := ℕ × ℕ × ℕ

/-- The sync-pulse handler: the V-sync state machine and the H-sync PI
loop (the body under `if d.pixelCounter > d.hSyncPulseWidth/2` in
ProcessIQ, followed by `d.pixelCounter = 0; continue`). -/
def handlePulse (st : DecState) : DecState :=
  let isLongPulse := st.pixelCounter > st.hSyncPulseWidth * 2
  match st.vSyncState with
  | .SearchVSync =>
    if st.y > FrameHeight - 20 ∧ isLongPulse then
      { st with vSyncState := .InVSync, vSyncSerrationCounter := 1, pixelCounter := 0 }
    else
      let error : ℚ := (st.x : ℚ) - st.samplesPerLine
      let acc := st.hSyncErrorAccumulator + error * 0.0001
      let spl0 := st.samplesPerLine + (error * 0.002 + acc)
      let spl1 := if spl0 < st.initialSamplesPerLine * 0.95 then
          st.initialSamplesPerLine * 0.95 else spl0
      let spl2 := if spl1 > st.initialSamplesPerLine * 1.05 then
          st.initialSamplesPerLine * 1.05 else spl1
      { st with samplesPerLine := spl2, hSyncErrorAccumulator := acc,
                y := st.y + 1, x := 0, pixelCounter := 0 }
  | .InVSync =>
    if isLongPulse ∧ st.vSyncSerrationCounter < 6 then
      { st with vSyncSerrationCounter := st.vSyncSerrationCounter + 1, pixelCounter := 0 }
    else if st.vSyncSerrationCounter ≥ 3 then
      { st with y := 0, x := 0, samplesPerLine := st.initialSamplesPerLine,
                hSyncErrorAccumulator := 0, vSyncState := .SearchVSync,
                vSyncSerrationCounter := 0, pixelCounter := 0 }
    else
      { st with vSyncState := .SearchVSync, vSyncSerrationCounter := 0, pixelCounter := 0 }

/-- The pixel column of the current sample:
`int(float64(x − lineStartActiveVideo) / samplesInActiveVideo · W)`. -/
def pixelCol (st : DecState) : ℤ :=
  goTrunc (((st.x - st.lineStartActiveVideo : ℕ) : ℚ) /
    ((st.lineEndActiveVideo - st.lineStartActiveVideo : ℕ) : ℚ) * FrameWidth)

/-- The brightness byte: `(blackLevel − mag)·levelCoeff` clamped to
[0,255], then converted with a Go byte conversion. -/
def pixelByte (lv : Levels) (mag : ℚ) : ℕ :=
  let b0 := (lv.blackLevel - mag) * lv.levelCoeff
  let b1 := if b0 < 0 then 0 else b0
  let b2 := if b1 > 255 then 255 else b1
  goByte b2

/-- The video-drawing, x advance, flywheel and frame-completion part of
one loop iteration (everything after the sync-detection block; reached
unless a pulse was committed, in which case the source does `continue`). -/
def afterSync (lv : Levels) (st : DecState) (mag : ℚ) : DecState × Option Write :=
  let drawn : DecState × Option Write :=
    if st.y < FrameHeight ∧ st.lineStartActiveVideo ≤ st.x ∧ st.x < st.lineEndActiveVideo then
      if 0 ≤ pixelCol st ∧ pixelCol st < FrameWidth then
        ({ st with frameBuffer := (update3 st.frameBuffer
              ((st.y * FrameWidth + (pixelCol st).toNat) * 3) (pixelByte lv mag)) },
         some (st.y, (pixelCol st).toNat, pixelByte lv mag))
      else (st, none)
    else (st, none)
  let st2 := { drawn.1 with x := drawn.1.x + 1 }
  let st3 := if (st2.x : ℤ) ≥ goTrunc st2.samplesPerLine then
      { st2 with x := 0, y := st2.y + 1 } else st2
  let st4 := if st3.y ≥ FrameHeight then
      { st3 with y := 0, displayBuffer := st3.frameBuffer } else st3
  (st4, drawn.2)

/-- Whether this sample commits a sync pulse (the envelope dropped below
threshold inside the search window after a long enough run). -/
def commitsPulse (lv : Levels) (st : DecState) (mag : ℚ) : Prop :=
  st.x < st.syncSearchWindow ∧ ¬ mag ≥ lv.syncThreshold ∧
    st.pixelCounter > st.hSyncPulseWidth / 2

instance (lv : Levels) (st : DecState) (mag : ℚ) : Decidable (commitsPulse lv st mag) := by
  unfold commitsPulse; infer_instance

/-- One iteration of the per-sample loop of ProcessIQ. -/
def stepSampleW (lv : Levels) (st : DecState) (mag : ℚ) : DecState × Option Write :=
  if st.x < st.syncSearchWindow then
    if mag ≥ lv.syncThreshold then
      afterSync lv { st with pixelCounter := st.pixelCounter + 1 } mag
    else if st.pixelCounter > st.hSyncPulseWidth / 2 then
      (handlePulse st, none)
    else
      afterSync lv { st with pixelCounter := 0 } mag
  else afterSync lv st mag

/-- The per-sample loop over a demodulated buffer, accumulating the
pixel writes in order. -/
def stepsW (lv : Levels) (st : DecState) : List ℚ → DecState × List Write
  | [] => (st, [])
  | m :: ms =>
    let r1 := stepSampleW lv st m
    let r2 := stepsW lv r1.1 ms
    (r2.1, r1.2.toList ++ r2.2)

/-- Per-buffer AGC update: EMA of the local magnitude extrema
(`localMax` starts at 0.0 and `localMin` at 255.0 in the source). -/
def agcUpdate (st : DecState) (mags : List ℚ) : DecState :=
  { st with smoothedMax := st.smoothedMax * 0.95 + (mags.foldl max 0) * 0.05,
            smoothedMin := st.smoothedMin * 0.95 + (mags.foldl min 255) * 0.05 }

/-- The working levels ProcessIQ derives from the smoothed AGC state. -/
def levelsOf (st : DecState) : Levels :=
  { syncThreshold := st.smoothedMax * 0.75
    blackLevel := st.smoothedMax * 0.65
    levelCoeff := 255 / (st.smoothedMax * 0.65 - st.smoothedMin + 1e-6) }

/-- One ProcessIQ call on a buffer whose demodulated magnitudes are
`mags`: AGC update, then the per-sample loop with the derived levels. -/
def processMagsW (st : DecState) (mags : List ℚ) : DecState × List Write :=
  let st1 := agcUpdate st mags
  stepsW (levelsOf st1) st1 mags

/-- A sequence of ProcessIQ calls. -/
def runAllW (st : DecState) : List (List ℚ) → DecState × List Write
  | [] => (st, [])
  | ms :: rest =>
    let r1 := processMagsW st ms
    let r2 := runAllW r1.1 rest
    (r2.1, r1.2 ++ r2.2)

/-- GetDisplayFrame returns a copy of the display buffer. -/
def GetDisplayFrame (st : DecState) : ℕ → ℕ := st.displayBuffer

/-- The PLL bounds invariant: samplesPerLine within
[0.95, 1.05]·initialSamplesPerLine (with a non-negative reference). -/
def InvP (st : DecState) : Prop :=
  0 ≤ st.initialSamplesPerLine ∧
    st.initialSamplesPerLine * 0.95 ≤ st.samplesPerLine ∧
    st.samplesPerLine ≤ st.initialSamplesPerLine * 1.05

/-- A pixel buffer is grayscale: the three bytes of every pixel agree. -/
def Inv3 (f : ℕ → ℕ) : Prop :=
  ∀ p : ℕ, f (3 * p) = f (3 * p + 1) ∧ f (3 * p + 1) = f (3 * p + 2)

/-- C3 witness state: a fresh decoder at 1.5 Msps with an accumulated
pulse of 4 samples about to be committed. -/
def pllWitSt : DecState := { DecState.new 1500000 with pixelCounter := 4 }

/-- C4 witness state: a decoder in InVSync with three counted serrations. -/
def vsyncWitSt : DecState :=
  { DecState.new 1500000 with
    vSyncState := .InVSync
    vSyncSerrationCounter := 3
    pixelCounter := 4 }

/-- The C4 counterexample start state: a decoder at 1.5 Msps near the
frame end, mid V-sync with three counted serrations. -/
def vsyncCexSt : DecState :=
  { DecState.new 1500000 with
    y := 470
    vSyncState := .InVSync
    vSyncSerrationCounter := 3 }

/-- The C4 counterexample input magnitudes: a short pulse ending the
serration sequence (samples 1-5, confirming V-sync), a second short
pulse committed at x = 4 (samples 6-10, driving the H-sync PLL and
advancing to line 1 before any pixel is drawn), then ten low samples
that carry x into the active region. -/
def vsyncCexMags : List ℚ :=
  [100, 100, 100, 100, 0, 100, 100, 100, 100, 0] ++ List.replicate 10 0

/-! ## Helper lemmas -/

/-- The pair emitted at slot i of a callback reads the composite sample at
cursor position (c + i) mod frame length. -/
theorem txLoop_get (amp : ℚ → ℚ) (fb : List ℚ) :
    ∀ (N c i : ℕ), c < fb.length → i < N →
      (txLoop amp fb c N).1.get? i =
        some (txI amp (fb.getD ((c + i) % fb.length) 0), 0) := by
  intro N
  induction N with
  | zero => intro c i _ hi; omega
  | succ n ih =>
    intro c i hc hi
    cases i with
    | zero =>
      simp only [txLoop, List.get?]
      rw [Nat.add_zero, Nat.mod_eq_of_lt hc]
    | succ j =>
      simp only [txLoop, List.get?]
      by_cases hw : c + 1 ≥ fb.length
      · rw [if_pos hw, ih 0 j (by omega) (by omega)]
        have hmod : (c + (j + 1)) % fb.length = (0 + j) % fb.length := by
          rw [show c + (j + 1) = fb.length + j from by omega, Nat.zero_add,
            Nat.add_mod_left]
        rw [hmod]
      · rw [if_neg hw, ih (c + 1) j (by omega) (by omega)]
        rw [show c + 1 + j = c + (j + 1) from by omega]

theorem zeroOracle_admissible : ∀ n, |zeroOracle n| ≤ 1 := by
  intro n; simp [zeroOracle]

/-! ## Concrete values of the derived constants (checked against IEEE-754
double evaluation of the source expressions; no borderline case differs). -/

theorem ntscLineSamples_eq : ntscLineSamples = 508 := by decide

theorem ntscHSyncSamples_eq : ntscHSyncSamples = 37 := by decide

theorem ntscVSyncPulseSamples_eq : ntscVSyncPulseSamples = 216 := by decide

theorem ntscEqPulseSamples_eq : ntscEqPulseSamples = 18 := by decide

theorem ntscBurstStartSamples_eq : ntscBurstStartSamples = 44 := by decide

theorem ntscBurstEndSamples_eq : ntscBurstEndSamples = 64 := by decide

theorem ntscActiveStartSamples_eq : ntscActiveStartSamples = 85 := by decide

theorem ntscActiveSamples_eq : ntscActiveSamples = 420 := by decide

theorem palLineSamples_eq : palLineSamples = 512 := by decide

theorem palHSyncSamples_eq : palHSyncSamples = 37 := by decide

theorem palActiveStartSamples_eq : palActiveStartSamples = 84 := by decide

theorem palActiveSamples_eq : palActiveSamples = 416 := by decide

/-! ## Claim theorems -/

/-- C6: the IRE-to-amplitude map satisfies amp(100) = 0.125 exactly,
amp(0) = 0.75, amp(−40) = 1.0 exactly, is strictly monotonically
decreasing, and the NTSC and PAL implementations compute the identical
function. -/
theorem ire_amplitude_map :
    ntscIreToAmplitude 100 = 0.125 ∧ ntscIreToAmplitude 0 = 0.75 ∧
    ntscIreToAmplitude (-40) = 1 ∧
    (∀ a b : ℚ, a < b → ntscIreToAmplitude b < ntscIreToAmplitude a) ∧
    (∀ x : ℚ, ntscIreToAmplitude x = palIreToAmplitude x) := by
  refine ⟨by norm_num [ntscIreToAmplitude], by norm_num [ntscIreToAmplitude],
    by norm_num [ntscIreToAmplitude], ?_, fun x => rfl⟩
  intro a b hab
  have hd : ntscIreToAmplitude a - ntscIreToAmplitude b = (b - a) / 160 := by
    unfold ntscIreToAmplitude; ring
  have hpos : (0 : ℚ) < (b - a) / 160 := by
    apply div_pos <;> linarith
  linarith

/-- C6 witness: the monotonicity conjunct applied at 0 < 50. -/
theorem ire_amplitude_map_witness :
    ntscIreToAmplitude 50 < ntscIreToAmplitude 0 :=
  ire_amplitude_map.2.2.2.1 0 50 (by norm_num)

/-- C1 counterexample: the source converts with int8(amplitude·127.0),
which truncates toward zero; at peak white (100 IRE, amplitude 0.125) the
product is 15.875, so the emitted I byte is 15, while the claimed
round(amplitude·127) is 16. -/
theorem tx_white_encodes_15_not_16 :
    txLoop ntscIreToAmplitude [100] 0 1 = ([(15, 0)], 0) ∧
    txISpec ntscIreToAmplitude 100 = 16 ∧ (15 : ℤ) ≠ 16 := by
  refine ⟨by decide, by decide, by decide⟩

/-- C1 (amended): for a callback buffer of length 2N with start cursor c0
< frame length, slot i < N emits the I value int8-truncate(amp(ire)·127)
with ire = composite[(c0+i) mod length] and the Q value 0; peak white
(100 IRE) encodes to 15, blanking (0 IRE) to 95 and sync tip (−40 IRE)
to 127. -/
theorem tx_callback_encoding :
    ∀ (fb : List ℚ) (c0 N i : ℕ), c0 < fb.length → i < N →
      (txLoop ntscIreToAmplitude fb c0 N).1.get? i =
        some (txI ntscIreToAmplitude (fb.getD ((c0 + i) % fb.length) 0), 0) ∧
      txI ntscIreToAmplitude 100 = 15 ∧ txI ntscIreToAmplitude 0 = 95 ∧
      txI ntscIreToAmplitude (-40) = 127 := by
  intro fb c0 N i hc hi
  exact ⟨txLoop_get ntscIreToAmplitude fb N c0 i hc hi, by decide, by decide, by decide⟩

/-- C1 witness: the amended statement at the one-sample peak-white frame. -/
theorem tx_callback_encoding_witness :
    (txLoop ntscIreToAmplitude [100] 0 1).1.get? 0 =
      some (txI ntscIreToAmplitude (((100 : ℚ) :: []).getD ((0 + 0) % (1 : ℕ)) 0), 0) ∧
    txI ntscIreToAmplitude 100 = 15 ∧ txI ntscIreToAmplitude 0 = 95 ∧
    txI ntscIreToAmplitude (-40) = 127 := by
  have h := tx_callback_encoding [100] 0 1 0 (by decide) (by decide)
  simpa using h

/-- C7: at 8 Msps the NTSC line length is 508 samples and synthesizer
line 3 (an equalizing line) is levelSync exactly on [0,18) ∪ [254,272)
and levelBlanking on every other sample of the line (the claim allows a
±1-sample tolerance; the equality here is exact).  Line 3 is a VBI line,
so the full-frame sample equals the luma line for every trig oracle and
RGB input. -/
theorem ntsc_line3_eq_signature :
    ntscLineSamples = 508 ∧
    (∀ (rgb : ℤ → ℚ) (s : ℕ), s < ntscLineSamples →
      ntscLumaLine rgb 3 s =
        if s < 18 ∨ (254 ≤ s ∧ s < 272) then ntscLevelSync else ntscLevelBlanking) ∧
    (∀ (ocos osin oburst : ℕ → ℚ) (rgb : ℤ → ℚ) (s : ℕ),
      ntscSample ocos osin oburst rgb 3 s = ntscLumaLine rgb 3 s) := by
  refine ⟨ntscLineSamples_eq, ?_, ?_⟩
  · intro rgb s _
    have h2 : ntscLinesPerFrame / 2 = 262 := by decide
    simp only [ntscLumaLine, h2, ntscLineSamples_eq, ntscEqPulseSamples_eq]
    norm_num
  · intro ocos osin oburst rgb s
    have hV : ntscIsVBIFrame 3 := by decide
    simp only [ntscSample]
    rw [if_pos hV, add_zero]

/-- C7 witness: the signature applied at sample 0 of line 3. -/
theorem ntsc_line3_eq_signature_witness :
    ntscLumaLine rgbZero 3 0 =
      if (0 : ℕ) < 18 ∨ (254 ≤ (0 : ℕ) ∧ (0 : ℕ) < 272) then ntscLevelSync
      else ntscLevelBlanking :=
  ntsc_line3_eq_signature.2.1 rgbZero 0 (by decide)

/-- The luminance component of getPixelYIQ is within [levelBlack,
levelWhite] whenever the RGB bytes are within [0,255]. -/
theorem getPixelYIQ_y_bounds (rgb : ℤ → ℚ)
    (hb : ∀ k, 0 ≤ rgb k ∧ rgb k ≤ 255) (L s : ℕ) :
    ntscLevelBlack ≤ (getPixelYIQ rgb L s).1 ∧
      (getPixelYIQ rgb L s).1 ≤ ntscLevelWhite := by
  simp only [getPixelYIQ]
  generalize ntscVideoLine L = v
  generalize ntscPixelX s = px
  split_ifs with h
  · dsimp only
    norm_num [ntscLevelBlack, ntscLevelWhite]
  · dsimp only
    obtain ⟨hr0, hr1⟩ := hb ((v * FrameWidth + px) * 3)
    obtain ⟨hg0, hg1⟩ := hb ((v * FrameWidth + px) * 3 + 1)
    obtain ⟨hb0, hb1⟩ := hb ((v * FrameWidth + px) * 3 + 2)
    simp only [ntscLevelBlack, ntscLevelWhite]
    constructor <;> nlinarith

/-- On a grayscale frame (equal R, G and B bytes per pixel) the I and Q
chroma components of getPixelYIQ vanish identically. -/
theorem getPixelYIQ_gray_chroma (rgb : ℤ → ℚ)
    (hg : ∀ p : ℤ, rgb (3 * p) = rgb (3 * p + 1) ∧ rgb (3 * p + 1) = rgb (3 * p + 2))
    (L s : ℕ) :
    (getPixelYIQ rgb L s).2.1 = 0 ∧ (getPixelYIQ rgb L s).2.2 = 0 := by
  simp only [getPixelYIQ]
  generalize ntscVideoLine L = v
  generalize ntscPixelX s = px
  split_ifs with h
  · exact ⟨rfl, rfl⟩
  · dsimp only
    obtain ⟨h1, h2⟩ := hg (v * FrameWidth + px)
    have e1 : (v * (FrameWidth : ℤ) + px) * 3 = 3 * (v * FrameWidth + px) := by ring
    rw [e1, ← h2, ← h1]
    constructor <;> ring

/-- C2 (amended): for every grayscale RGB frame (equal R, G and B bytes,
all in [0,255]), every admissible trig oracle (|cos|,|sin| ≤ 1, as for
the real subcarrier), every NTSC line L ∈ [22,262] ∪ [285,525] — line
263 excluded, see the counterexample — and every sample of the active
region, the synthesized sample lies within
[levelBlack − burstAmplitude, levelWhite + burstAmplitude]. -/
theorem ntsc_active_range_grayscale :
    ∀ (ocos osin oburst : ℕ → ℚ) (rgb : ℤ → ℚ),
      (∀ n, |ocos n| ≤ 1) → (∀ n, |osin n| ≤ 1) → (∀ n, |oburst n| ≤ 1) →
      (∀ k, 0 ≤ rgb k ∧ rgb k ≤ 255) →
      (∀ p : ℤ, rgb (3 * p) = rgb (3 * p + 1) ∧ rgb (3 * p + 1) = rgb (3 * p + 2)) →
      ∀ L s, ((22 ≤ L ∧ L ≤ 262) ∨ (285 ≤ L ∧ L ≤ 525)) →
        ntscActiveStartSamples ≤ s → s < ntscActiveStartSamples + ntscActiveSamples →
        ntscLevelBlack - ntscBurstAmplitude ≤ ntscSample ocos osin oburst rgb L s ∧
        ntscSample ocos osin oburst rgb L s ≤ ntscLevelWhite + ntscBurstAmplitude := by
  intro ocos osin oburst rgb _ _ _ hb hg L s hL hs1 hs2
  have has : ntscActiveStartSamples = 85 := ntscActiveStartSamples_eq
  have hasz : ntscActiveSamples = 420 := ntscActiveSamples_eq
  have hbs : ntscBurstStartSamples = 44 := ntscBurstStartSamples_eq
  have hbe : ntscBurstEndSamples = 64 := ntscBurstEndSamples_eq
  have hchroma : ntscSample ocos osin oburst rgb L s = ntscLumaLine rgb L s := by
    obtain ⟨hI, hQ⟩ := getPixelYIQ_gray_chroma rgb hg L s
    have hnotVBI : ¬ ntscIsVBIFrame L := by unfold ntscIsVBIFrame; omega
    have hnb : ¬ (ntscBurstStartSamples ≤ s ∧ s < ntscBurstEndSamples) := by omega
    simp only [ntscSample]
    rw [if_neg hnotVBI, if_neg hnb, if_pos ⟨hs1, hs2⟩, hI, hQ]
    ring
  have hluma : ntscLumaLine rgb L s = (getPixelYIQ rgb L s).1 := by
    have h2 : ntscLinesPerFrame / 2 = 262 := by decide
    simp only [ntscLumaLine, h2]
    rcases hL with ⟨h22, h262⟩ | ⟨h285, h525⟩
    · rw [if_neg (by omega : ¬ L > 262), if_neg (by omega), if_neg (by omega),
        if_pos ⟨by omega, hs1, hs2⟩]
    · rw [if_pos (by omega : L > 262), if_neg (by omega), if_neg (by omega),
        if_pos ⟨by omega, hs1, hs2⟩]
  obtain ⟨hy1, hy2⟩ := getPixelYIQ_y_bounds rgb hb L s
  rw [hchroma, hluma]
  have hba : ntscBurstAmplitude = 20 := rfl
  constructor
  · linarith
  · linarith

/-- C2 counterexample: NTSC line 263 maps to lineInField 1, an
equalizing-pulse line, yet it is not in the frame-level VBI set, and the
claim's line set [22,263] ∪ [285,525] includes it.  At sample 254 (inside
the active region [85,505)) the synthesized value is levelSync = −40,
which is below levelBlack − burstAmplitude = −12.5.  The chroma
coefficients at this sample are zero (the raster row 482 is out of range),
so the value is −40 for every trig oracle, in particular the real one. -/
theorem ntsc_line263_eq_pulse_in_active :
    ntscActiveStartSamples ≤ 254 ∧ 254 < ntscActiveStartSamples + ntscActiveSamples ∧
    ntscSample zeroOracle zeroOracle zeroOracle rgbZero 263 254 = -40 ∧
    ¬ ntscLevelBlack - ntscBurstAmplitude ≤ (-40 : ℚ) :=
  ⟨by decide, by decide, by decide, by decide⟩

/-- C2 witness: the amended bound at line 22, sample 85, on the black
frame with the zero trig oracle. -/
theorem ntsc_active_range_grayscale_witness :
    ntscLevelBlack - ntscBurstAmplitude ≤
        ntscSample zeroOracle zeroOracle zeroOracle rgbZero 22 85 ∧
      ntscSample zeroOracle zeroOracle zeroOracle rgbZero 22 85 ≤
        ntscLevelWhite + ntscBurstAmplitude :=
  ntsc_active_range_grayscale zeroOracle zeroOracle zeroOracle rgbZero
    zeroOracle_admissible zeroOracle_admissible zeroOracle_admissible
    (fun _ => by norm_num [rgbZero]) (fun _ => ⟨rfl, rfl⟩) 22 85 (by omega)
    (by simp [ntscActiveStartSamples_eq])
    (by rw [ntscActiveStartSamples_eq, ntscActiveSamples_eq]; omega)

/-- The PAL luminance component is non-negative whenever the RGB bytes
are non-negative (levelBlack is 0 for PAL). -/
theorem getPixelYUV_y_nonneg (rgb : ℤ → ℚ)
    (hb : ∀ k, 0 ≤ rgb k ∧ rgb k ≤ 255) (L s : ℕ) :
    0 ≤ (getPixelYUV rgb L s).1 := by
  simp only [getPixelYUV]
  generalize palVideoLine L = v
  generalize palPixelX s = px
  split_ifs with h1 h2
  · dsimp only
    norm_num [palLevelBlack]
  · dsimp only
    obtain ⟨hr0, hr1⟩ := hb ((v * FrameWidth + px) * 3)
    obtain ⟨hg0, hg1⟩ := hb ((v * FrameWidth + px) * 3 + 1)
    obtain ⟨hb0, hb1⟩ := hb ((v * FrameWidth + px) * 3 + 2)
    simp only [palLevelBlack, palLevelWhite]
    nlinarith
  · dsimp only
    norm_num [palLevelBlack]

/-- C8: every PAL line starts with hSyncSamples of levelSync, and the
samples of the half-line window [lineSamples/2, lineSamples/2+hSyncSamples)
are levelSync exactly for lines 1, 2, 313 and 314. -/
theorem pal_hsync_pulses :
    ∀ (rgb : ℤ → ℚ), (∀ k, 0 ≤ rgb k ∧ rgb k ≤ 255) →
      ∀ L s, 1 ≤ L → L ≤ 625 →
        (s < palHSyncSamples → palLumaLine rgb L s = palLevelSync) ∧
        (palLineSamples / 2 ≤ s → s < palLineSamples / 2 + palHSyncSamples →
          (palLumaLine rgb L s = palLevelSync ↔ (L = 1 ∨ L = 2 ∨ L = 313 ∨ L = 314))) := by
  intro rgb hb L s hL1 hL625
  have hhs : palHSyncSamples = 37 := palHSyncSamples_eq
  have hls : palLineSamples = 512 := palLineSamples_eq
  have hact : palActiveStartSamples = 84 := palActiveStartSamples_eq
  have hacts : palActiveSamples = 416 := palActiveSamples_eq
  constructor
  · intro hs
    have hhalf : palLineSamples / 2 = 256 := by omega
    simp only [palLumaLine, hhalf]
    rw [if_neg (by omega), if_neg (by omega), if_pos hs]
  · intro hs1 hs2
    have hhalf : palLineSamples / 2 = 256 := by omega
    rw [hhalf] at hs1 hs2
    by_cases hset : (1 ≤ L ∧ L ≤ 2) ∨ (313 ≤ L ∧ L ≤ 314)
    · have hVBI : palIsVBI L := by unfold palIsVBI; omega
      simp only [palLumaLine, hhalf]
      rw [if_neg (by simp [hVBI]), if_pos ⟨hset, hs1, hs2⟩]
      constructor
      · intro _; omega
      · intro _; rfl
    · by_cases hVBI : palIsVBI L
      · simp only [palLumaLine, hhalf]
        rw [if_neg (by simp [hVBI]), if_neg (by omega), if_neg (by omega)]
        constructor
        · intro habs
          exact absurd habs (by norm_num [palLevelBlanking, palLevelSync])
        · intro habs; omega
      · have hy := getPixelYUV_y_nonneg rgb hb L s
        simp only [palLumaLine, hhalf]
        rw [if_pos ⟨hVBI, by omega, by omega⟩]
        constructor
        · intro habs
          rw [habs] at hy
          norm_num [palLevelSync] at hy
        · intro habs; omega

/-- C8 witness: the pulse characterization at line 1, sample 0 of the
black frame. -/
theorem pal_hsync_pulses_witness :
    ((0 : ℕ) < palHSyncSamples → palLumaLine rgbZero 1 0 = palLevelSync) ∧
    (palLineSamples / 2 ≤ 0 → 0 < palLineSamples / 2 + palHSyncSamples →
      (palLumaLine rgbZero 1 0 = palLevelSync ↔
        ((1 : ℕ) = 1 ∨ (1 : ℕ) = 2 ∨ (1 : ℕ) = 313 ∨ (1 : ℕ) = 314))) :=
  pal_hsync_pulses rgbZero (fun _ => by norm_num [rgbZero]) 1 0 (by omega) (by omega)

theorem goIfLt_eq_max (a lo : ℚ) : (if a < lo then lo else a) = max lo a := by
  rcases lt_or_le a lo with h | h
  · rw [if_pos h, max_eq_left h.le]
  · rw [if_neg (not_lt.mpr h), max_eq_right h]

theorem goIfGt_eq_min (a hi : ℚ) : (if a > hi then hi else a) = min hi a := by
  rcases lt_or_le hi a with h | h
  · rw [if_pos h, min_eq_left h.le]
  · rw [if_neg (not_lt.mpr h), min_eq_right h]

/-- C3: a committed short pulse handled in SearchVSync (not entering the
V-sync branch) updates the PLL exactly as: error = x − samplesPerLine;
hSyncErrorAccumulator += error·1e-4; samplesPerLine += (error·2e-3 +
hSyncErrorAccumulator); samplesPerLine is then clamped to
[0.95, 1.05]·initialSamplesPerLine; y is incremented and x reset to 0.
No pixel is written by this iteration. -/
theorem hsync_pll_update :
    ∀ (lv : Levels) (st : DecState) (mag : ℚ),
      st.vSyncState = .SearchVSync →
      commitsPulse lv st mag →
      ¬ (st.y > FrameHeight - 20 ∧ st.pixelCounter > st.hSyncPulseWidth * 2) →
      stepSampleW lv st mag =
        ({ st with
            samplesPerLine :=
              min (st.initialSamplesPerLine * 1.05)
                (max (st.initialSamplesPerLine * 0.95)
                  (st.samplesPerLine +
                    (((st.x : ℚ) - st.samplesPerLine) * 0.002 +
                      (st.hSyncErrorAccumulator + ((st.x : ℚ) - st.samplesPerLine) * 0.0001)))),
            hSyncErrorAccumulator :=
              st.hSyncErrorAccumulator + ((st.x : ℚ) - st.samplesPerLine) * 0.0001,
            y := st.y + 1, x := 0, pixelCounter := 0 }, none) := by
  intro lv st mag hsearch hc hnv
  obtain ⟨hx, hmag, hpc⟩ := hc
  simp only [stepSampleW]
  rw [if_pos hx, if_neg hmag, if_pos hpc]
  simp only [handlePulse]
  rw [hsearch]
  simp only []
  rw [if_neg hnv, goIfLt_eq_max, goIfGt_eq_min]

/-- C3 witness: the PLL update applied at the concrete state. -/
theorem hsync_pll_update_witness :
    stepSampleW ⟨50, 0, 0⟩ pllWitSt 0 =
      ({ pllWitSt with
          samplesPerLine :=
            min (pllWitSt.initialSamplesPerLine * 1.05)
              (max (pllWitSt.initialSamplesPerLine * 0.95)
                (pllWitSt.samplesPerLine +
                  (((pllWitSt.x : ℚ) - pllWitSt.samplesPerLine) * 0.002 +
                    (pllWitSt.hSyncErrorAccumulator +
                      ((pllWitSt.x : ℚ) - pllWitSt.samplesPerLine) * 0.0001)))),
          hSyncErrorAccumulator :=
            pllWitSt.hSyncErrorAccumulator +
              ((pllWitSt.x : ℚ) - pllWitSt.samplesPerLine) * 0.0001,
          y := pllWitSt.y + 1, x := 0, pixelCounter := 0 }, none) :=
  hsync_pll_update ⟨50, 0, 0⟩ pllWitSt 0 (by decide) (by decide) (by decide)

/-- C4 (amended): a committed pulse in InVSync that is not a continuing
serration (not both long and counter < 6) confirms V-sync when the
serration counter is at least 3 — resetting y, x, the line-length
estimate and the PLL accumulator — and in every case returns to
SearchVSync with counter 0.  Immediately after a confirmed V-sync the
current raster row is 0; the next pixel actually written can land on a
later row if line advances occur first (see the counterexample). -/
theorem vsync_fsm_exit :
    ∀ (lv : Levels) (st : DecState) (mag : ℚ),
      st.vSyncState = .InVSync →
      commitsPulse lv st mag →
      ¬ (st.pixelCounter > st.hSyncPulseWidth * 2 ∧ st.vSyncSerrationCounter < 6) →
      stepSampleW lv st mag =
        (if st.vSyncSerrationCounter ≥ 3 then
          { st with
            y := 0
            x := 0
            samplesPerLine := st.initialSamplesPerLine
            hSyncErrorAccumulator := 0
            vSyncState := .SearchVSync
            vSyncSerrationCounter := 0
            pixelCounter := 0 }
         else
          { st with
            vSyncState := .SearchVSync
            vSyncSerrationCounter := 0
            pixelCounter := 0 }, none) := by
  intro lv st mag hin hc hns
  obtain ⟨hx, hmag, hpc⟩ := hc
  simp only [stepSampleW]
  rw [if_pos hx, if_neg hmag, if_pos hpc]
  simp only [handlePulse]
  rw [hin]
  simp only []
  rw [if_neg hns]

/-- C4 witness: the FSM exit applied at the concrete state (the short
pulse ends the serration sequence and counter 3 confirms V-sync). -/
theorem vsync_fsm_exit_witness :
    stepSampleW ⟨50, 0, 0⟩ vsyncWitSt 0 =
      (if vsyncWitSt.vSyncSerrationCounter ≥ 3 then
        { vsyncWitSt with
          y := 0
          x := 0
          samplesPerLine := vsyncWitSt.initialSamplesPerLine
          hSyncErrorAccumulator := 0
          vSyncState := .SearchVSync
          vSyncSerrationCounter := 0
          pixelCounter := 0 }
       else
        { vsyncWitSt with
          vSyncState := .SearchVSync
          vSyncSerrationCounter := 0
          pixelCounter := 0 }, none) :=
  vsync_fsm_exit ⟨50, 0, 0⟩ vsyncWitSt 0 (by decide) (by decide) (by decide)

set_option maxRecDepth 100000 in
/-- C4 counterexample: running the decoder on vsyncCexMags, V-sync is
confirmed at sample 5 (y = 0, back in SearchVSync, no pixel written yet),
but the first pixel write of the run lands in raster row 1, not row 0:
the second committed pulse advances y before x ever reaches the active
region.  This refutes "after such a confirmed V-sync, the next raster
row the decoder writes a pixel into is row 0". -/
theorem vsync_next_write_not_row_zero :
    (stepsW (levelsOf (agcUpdate vsyncCexSt vsyncCexMags))
        (agcUpdate vsyncCexSt vsyncCexMags) (vsyncCexMags.take 5)).1.y = 0 ∧
    (stepsW (levelsOf (agcUpdate vsyncCexSt vsyncCexMags))
        (agcUpdate vsyncCexSt vsyncCexMags) (vsyncCexMags.take 5)).1.vSyncState =
      .SearchVSync ∧
    (stepsW (levelsOf (agcUpdate vsyncCexSt vsyncCexMags))
        (agcUpdate vsyncCexSt vsyncCexMags) (vsyncCexMags.take 5)).2 = [] ∧
    (processMagsW vsyncCexSt vsyncCexMags).2.head? = some (1, 0, 254) :=
  ⟨by decide, by decide, by decide, by decide⟩

theorem handlePulse_invP (st : DecState) (h : InvP st) : InvP (handlePulse st) := by
  obtain ⟨h0, h1, h2⟩ := h
  cases hv : st.vSyncState with
  | SearchVSync =>
    simp only [handlePulse, hv]
    split_ifs with hA hB hC hD
    · exact ⟨h0, h1, h2⟩
    · exact ⟨h0, by linarith, by linarith⟩
    · exact ⟨h0, by linarith, by linarith⟩
    · exact ⟨h0, by linarith, by linarith⟩
    · exact ⟨h0, by linarith, by linarith⟩
  | InVSync =>
    simp only [handlePulse, hv]
    split_ifs with hA hB
    · exact ⟨h0, h1, h2⟩
    · exact ⟨h0, by linarith, by linarith⟩
    · exact ⟨h0, h1, h2⟩

theorem afterSync_keeps (lv : Levels) (st : DecState) (mag : ℚ) :
    (afterSync lv st mag).1.samplesPerLine = st.samplesPerLine ∧
      (afterSync lv st mag).1.initialSamplesPerLine = st.initialSamplesPerLine := by
  simp only [afterSync]
  split_ifs <;> exact ⟨rfl, rfl⟩

theorem stepSampleW_invP (lv : Levels) (st : DecState) (mag : ℚ) (h : InvP st) :
    InvP (stepSampleW lv st mag).1 := by
  have hkeep : ∀ st2 : DecState, InvP st2 → InvP (afterSync lv st2 mag).1 := by
    intro st2 h2
    obtain ⟨k1, k2⟩ := afterSync_keeps lv st2 mag
    exact ⟨k2 ▸ h2.1, by rw [k1, k2]; exact h2.2.1, by rw [k1, k2]; exact h2.2.2⟩
  simp only [stepSampleW]
  split_ifs with hA hB hC
  · exact hkeep _ ⟨h.1, h.2.1, h.2.2⟩
  · exact handlePulse_invP st h
  · exact hkeep _ ⟨h.1, h.2.1, h.2.2⟩
  · exact hkeep _ h

theorem stepsW_invP (lv : Levels) :
    ∀ (ms : List ℚ) (st : DecState), InvP st → InvP (stepsW lv st ms).1 := by
  intro ms
  induction ms with
  | nil => intro st h; exact h
  | cons m ms ih =>
    intro st h
    simp only [stepsW]
    exact ih _ (stepSampleW_invP lv st m h)

theorem processMagsW_invP (st : DecState) (ms : List ℚ) (h : InvP st) :
    InvP (processMagsW st ms).1 := by
  have hagc : InvP (agcUpdate st ms) := ⟨h.1, h.2.1, h.2.2⟩
  exact stepsW_invP _ ms _ hagc

theorem runAllW_invP :
    ∀ (bufs : List (List ℚ)) (st : DecState), InvP st → InvP (runAllW st bufs).1 := by
  intro bufs
  induction bufs with
  | nil => intro st h; exact h
  | cons ms rest ih =>
    intro st h
    simp only [runAllW]
    exact ih _ (processMagsW_invP st ms h)

theorem handlePulse_keeps_init (st : DecState) :
    (handlePulse st).initialSamplesPerLine = st.initialSamplesPerLine := by
  cases hv : st.vSyncState <;> simp only [handlePulse, hv] <;> split_ifs <;> rfl

theorem stepSampleW_keeps_init (lv : Levels) (st : DecState) (mag : ℚ) :
    (stepSampleW lv st mag).1.initialSamplesPerLine = st.initialSamplesPerLine := by
  simp only [stepSampleW]
  split_ifs
  · exact (afterSync_keeps lv _ mag).2
  · exact handlePulse_keeps_init st
  · exact (afterSync_keeps lv _ mag).2
  · exact (afterSync_keeps lv _ mag).2

theorem stepsW_keeps_init (lv : Levels) :
    ∀ (ms : List ℚ) (st : DecState),
      (stepsW lv st ms).1.initialSamplesPerLine = st.initialSamplesPerLine := by
  intro ms
  induction ms with
  | nil => intro st; rfl
  | cons m ms ih =>
    intro st
    simp only [stepsW]
    rw [ih, stepSampleW_keeps_init]

theorem runAllW_keeps_init :
    ∀ (bufs : List (List ℚ)) (st : DecState),
      (runAllW st bufs).1.initialSamplesPerLine = st.initialSamplesPerLine := by
  intro bufs
  induction bufs with
  | nil => intro st; rfl
  | cons ms rest ih =>
    intro st
    simp only [runAllW]
    rw [ih]
    exact stepsW_keeps_init _ ms _

theorem new_invP (rate : ℚ) (h : 0 ≤ rate) : InvP (DecState.new rate) := by
  have hinit : (0 : ℚ) ≤ (1 / ((30000 / 1001 : ℚ) * 525)) * rate := by
    apply mul_nonneg _ h
    norm_num
  exact ⟨hinit, by simp only [DecState.new]; nlinarith, by simp only [DecState.new]; nlinarith⟩

/-- C5: over every sequence of ProcessIQ calls with arbitrary demodulated
input, the decoder's samplesPerLine stays within
[0.95, 1.05]·initialSamplesPerLine, starting from samplesPerLine =
initialSamplesPerLine; the reference initialSamplesPerLine itself never
changes.  Instantiating the buffer list at every prefix gives the bound
after every PLL update and every V-sync reset. -/
theorem samplesPerLine_clamped :
    ∀ (rate : ℚ), 0 < rate → ∀ (bufs : List (List ℚ)),
      (DecState.new rate).samplesPerLine = (DecState.new rate).initialSamplesPerLine ∧
      (runAllW (DecState.new rate) bufs).1.initialSamplesPerLine =
        (DecState.new rate).initialSamplesPerLine ∧
      (runAllW (DecState.new rate) bufs).1.initialSamplesPerLine * 0.95 ≤
        (runAllW (DecState.new rate) bufs).1.samplesPerLine ∧
      (runAllW (DecState.new rate) bufs).1.samplesPerLine ≤
        (runAllW (DecState.new rate) bufs).1.initialSamplesPerLine * 1.05 := by
  intro rate hrate bufs
  have hinv := runAllW_invP bufs (DecState.new rate) (new_invP rate hrate.le)
  exact ⟨rfl, runAllW_keeps_init bufs (DecState.new rate), hinv.2.1, hinv.2.2⟩

/-- C5 witness: the invariant at 1.5 Msps after an empty call sequence. -/
theorem samplesPerLine_clamped_witness :
    (DecState.new 1500000).samplesPerLine = (DecState.new 1500000).initialSamplesPerLine ∧
    (runAllW (DecState.new 1500000) []).1.initialSamplesPerLine =
      (DecState.new 1500000).initialSamplesPerLine ∧
    (runAllW (DecState.new 1500000) []).1.initialSamplesPerLine * 0.95 ≤
      (runAllW (DecState.new 1500000) []).1.samplesPerLine ∧
    (runAllW (DecState.new 1500000) []).1.samplesPerLine ≤
      (runAllW (DecState.new 1500000) []).1.initialSamplesPerLine * 1.05 :=
  samplesPerLine_clamped 1500000 (by norm_num) []

theorem afterSync_write_bound (lv : Levels) (st : DecState) (mag : ℚ) (w : Write)
    (hw : (afterSync lv st mag).2 = some w) : w.1 < FrameHeight ∧ w.2.1 < FrameWidth := by
  revert hw
  simp only [afterSync]
  split_ifs with h1 h2 <;> intro hw
  · obtain rfl := Option.some.inj hw
    refine ⟨h1.1, ?_⟩
    obtain ⟨hp0, hp1⟩ := h2
    dsimp only
    omega
  · exact hw.elim
  · exact hw.elim

theorem stepSampleW_write_bound (lv : Levels) (st : DecState) (mag : ℚ) (w : Write)
    (hw : (stepSampleW lv st mag).2 = some w) : w.1 < FrameHeight ∧ w.2.1 < FrameWidth := by
  revert hw
  simp only [stepSampleW]
  split_ifs <;> intro hw
  · exact afterSync_write_bound lv _ mag w hw
  · exact hw.elim
  · exact afterSync_write_bound lv _ mag w hw
  · exact afterSync_write_bound lv _ mag w hw

theorem stepsW_write_bound (lv : Levels) :
    ∀ (ms : List ℚ) (st : DecState) (w : Write),
      w ∈ (stepsW lv st ms).2 → w.1 < FrameHeight ∧ w.2.1 < FrameWidth := by
  intro ms
  induction ms with
  | nil =>
    intro st w hw
    exact absurd hw (List.not_mem_nil w)
  | cons m ms ih =>
    intro st w hw
    simp only [stepsW] at hw
    rcases List.mem_append.mp hw with hl | hr
    · have hsome : (stepSampleW lv st m).2 = some w := by
        cases ho : (stepSampleW lv st m).2 with
        | none => rw [ho] at hl; exact absurd hl (List.not_mem_nil w)
        | some wr =>
          rw [ho] at hl
          have hww : w = wr := List.mem_singleton.mp hl
          rw [hww]
      exact stepSampleW_write_bound lv st m w hsome
    · exact ih _ w hr

theorem runAllW_write_bound :
    ∀ (bufs : List (List ℚ)) (st : DecState) (w : Write),
      w ∈ (runAllW st bufs).2 → w.1 < FrameHeight ∧ w.2.1 < FrameWidth := by
  intro bufs
  induction bufs with
  | nil =>
    intro st w hw
    exact absurd hw (List.not_mem_nil w)
  | cons ms rest ih =>
    intro st w hw
    simp only [runAllW] at hw
    rcases List.mem_append.mp hw with hl | hr
    · exact stepsW_write_bound _ ms _ w hl
    · exact ih _ w hr

theorem afterSync_xy (lv : Levels) (st : DecState) (mag : ℚ) :
    (afterSync lv st mag).1.x =
      (if ((st.x + 1 : ℕ) : ℤ) ≥ goTrunc st.samplesPerLine then 0 else st.x + 1) ∧
    (afterSync lv st mag).1.y =
      (if (if ((st.x + 1 : ℕ) : ℤ) ≥ goTrunc st.samplesPerLine then st.y + 1 else st.y) ≥
          FrameHeight then 0
       else if ((st.x + 1 : ℕ) : ℤ) ≥ goTrunc st.samplesPerLine then st.y + 1 else st.y) := by
  simp only [afterSync]
  split_ifs <;> exact ⟨rfl, rfl⟩

/-- C9: (a) every frame-buffer write the decoder performs, over any
sequence of ProcessIQ calls from a fresh decoder, stays inside the
W·H·3-byte buffer (writes only happen with 0 ≤ y < H and 0 ≤ pixelX < W);
(b) on any sample that commits no sync pulse, x advances and wraps at
int(samplesPerLine) with y incremented, and y wraps to 0 on reaching H. -/
theorem decoder_writes_inbounds_flywheel :
    (∀ (rate : ℚ) (bufs : List (List ℚ)) (w : Write),
        w ∈ (runAllW (DecState.new rate) bufs).2 →
        (w.1 * FrameWidth + w.2.1) * 3 + 2 < FrameWidth * FrameHeight * 3) ∧
    (∀ (lv : Levels) (st : DecState) (mag : ℚ),
        ¬ commitsPulse lv st mag →
        (stepSampleW lv st mag).1.x =
          (if ((st.x + 1 : ℕ) : ℤ) ≥ goTrunc st.samplesPerLine then 0 else st.x + 1) ∧
        (stepSampleW lv st mag).1.y =
          (if (if ((st.x + 1 : ℕ) : ℤ) ≥ goTrunc st.samplesPerLine then st.y + 1 else st.y) ≥
              FrameHeight then 0
           else if ((st.x + 1 : ℕ) : ℤ) ≥ goTrunc st.samplesPerLine then st.y + 1
           else st.y)) := by
  constructor
  · intro rate bufs w hw
    obtain ⟨hy, hx⟩ := runAllW_write_bound bufs (DecState.new rate) w hw
    have hy' : w.1 < 480 := hy
    have hx' : w.2.1 < 540 := hx
    show (w.1 * 540 + w.2.1) * 3 + 2 < 540 * 480 * 3
    omega
  · intro lv st mag hnc
    simp only [stepSampleW]
    by_cases h1 : st.x < st.syncSearchWindow
    · by_cases h2 : mag ≥ lv.syncThreshold
      · rw [if_pos h1, if_pos h2]
        exact afterSync_xy lv _ mag
      · by_cases h3 : st.pixelCounter > st.hSyncPulseWidth / 2
        · exact absurd ⟨h1, h2, h3⟩ hnc
        · rw [if_pos h1, if_neg h2, if_neg h3]
          exact afterSync_xy lv _ mag
    · rw [if_neg h1]
      exact afterSync_xy lv _ mag

set_option maxRecDepth 100000 in
/-- C9 witness: part (a) at the concrete write (0, 0, 254) produced by
twelve zero-magnitude samples at 1.5 Msps, and part (b) at a fresh
decoder state. -/
theorem decoder_writes_inbounds_flywheel_witness :
    (((0, 0, 254) : Write).1 * FrameWidth + ((0, 0, 254) : Write).2.1) * 3 + 2 <
        FrameWidth * FrameHeight * 3 ∧
    (stepSampleW ⟨0, 0, 0⟩ (DecState.new 1500000) 0).1.x =
      (if (((DecState.new 1500000).x + 1 : ℕ) : ℤ) ≥
          goTrunc (DecState.new 1500000).samplesPerLine then 0
       else (DecState.new 1500000).x + 1) :=
  ⟨decoder_writes_inbounds_flywheel.1 1500000 [List.replicate 12 0] (0, 0, 254) (by decide),
   (decoder_writes_inbounds_flywheel.2 ⟨0, 0, 0⟩ (DecState.new 1500000) 0 (by decide)).1⟩

theorem update3_inv3 (f : ℕ → ℕ) (m v : ℕ) (h : Inv3 f) : Inv3 (update3 f (m * 3) v) := by
  intro p
  obtain ⟨h1, h2⟩ := h p
  unfold update3
  by_cases hp : p = m
  · subst hp
    rw [if_pos (by omega), if_pos (by omega), if_pos (by omega)]
    exact ⟨rfl, rfl⟩
  · rw [if_neg (by omega), if_neg (by omega), if_neg (by omega)]
    exact ⟨h1, h2⟩

theorem afterSync_inv3 (lv : Levels) (st : DecState) (mag : ℚ)
    (hf : Inv3 st.frameBuffer) (hd : Inv3 st.displayBuffer) :
    Inv3 (afterSync lv st mag).1.frameBuffer ∧ Inv3 (afterSync lv st mag).1.displayBuffer := by
  simp only [afterSync]
  split_ifs <;>
    first
      | exact ⟨hf, hd⟩
      | exact ⟨hf, hf⟩
      | exact ⟨update3_inv3 _ _ _ hf, update3_inv3 _ _ _ hf⟩
      | exact ⟨update3_inv3 _ _ _ hf, hd⟩

theorem handlePulse_keeps_buffers (st : DecState) :
    (handlePulse st).frameBuffer = st.frameBuffer ∧
      (handlePulse st).displayBuffer = st.displayBuffer := by
  cases hv : st.vSyncState <;> simp only [handlePulse, hv] <;> split_ifs <;> exact ⟨rfl, rfl⟩

theorem stepSampleW_inv3 (lv : Levels) (st : DecState) (mag : ℚ)
    (hf : Inv3 st.frameBuffer) (hd : Inv3 st.displayBuffer) :
    Inv3 (stepSampleW lv st mag).1.frameBuffer ∧
      Inv3 (stepSampleW lv st mag).1.displayBuffer := by
  simp only [stepSampleW]
  split_ifs
  · exact afterSync_inv3 lv _ mag hf hd
  · obtain ⟨k1, k2⟩ := handlePulse_keeps_buffers st
    exact ⟨k1 ▸ hf, k2 ▸ hd⟩
  · exact afterSync_inv3 lv _ mag hf hd
  · exact afterSync_inv3 lv _ mag hf hd

theorem stepsW_inv3 (lv : Levels) :
    ∀ (ms : List ℚ) (st : DecState),
      Inv3 st.frameBuffer → Inv3 st.displayBuffer →
      Inv3 (stepsW lv st ms).1.frameBuffer ∧ Inv3 (stepsW lv st ms).1.displayBuffer := by
  intro ms
  induction ms with
  | nil => intro st hf hd; exact ⟨hf, hd⟩
  | cons m ms ih =>
    intro st hf hd
    simp only [stepsW]
    obtain ⟨hf1, hd1⟩ := stepSampleW_inv3 lv st m hf hd
    exact ih _ hf1 hd1

theorem runAllW_inv3 :
    ∀ (bufs : List (List ℚ)) (st : DecState),
      Inv3 st.frameBuffer → Inv3 st.displayBuffer →
      Inv3 (runAllW st bufs).1.frameBuffer ∧ Inv3 (runAllW st bufs).1.displayBuffer := by
  intro bufs
  induction bufs with
  | nil => intro st hf hd; exact ⟨hf, hd⟩
  | cons ms rest ih =>
    intro st hf hd
    simp only [runAllW]
    obtain ⟨hf1, hd1⟩ := stepsW_inv3 _ ms (agcUpdate st ms) hf hd
    exact ih _ hf1 hd1

/-- C10: the decoder's frameBuffer and displayBuffer start all-zero and
stay grayscale over any sequence of ProcessIQ calls — every pixel write
stores one brightness byte into all three channels and the
frame-completion copy preserves this — so every frame returned by
GetDisplayFrame has equal R, G and B bytes at every pixel. -/
theorem decoder_grayscale :
    ∀ (rate : ℚ) (bufs : List (List ℚ)) (p : ℕ),
      (DecState.new rate).frameBuffer p = 0 ∧
      (DecState.new rate).displayBuffer p = 0 ∧
      ((runAllW (DecState.new rate) bufs).1.frameBuffer (3 * p) =
          (runAllW (DecState.new rate) bufs).1.frameBuffer (3 * p + 1) ∧
        (runAllW (DecState.new rate) bufs).1.frameBuffer (3 * p + 1) =
          (runAllW (DecState.new rate) bufs).1.frameBuffer (3 * p + 2)) ∧
      (GetDisplayFrame (runAllW (DecState.new rate) bufs).1 (3 * p) =
          GetDisplayFrame (runAllW (DecState.new rate) bufs).1 (3 * p + 1) ∧
        GetDisplayFrame (runAllW (DecState.new rate) bufs).1 (3 * p + 1) =
          GetDisplayFrame (runAllW (DecState.new rate) bufs).1 (3 * p + 2)) := by
  intro rate bufs p
  have hz : Inv3 (DecState.new rate).frameBuffer := fun _ => ⟨rfl, rfl⟩
  have hz2 : Inv3 (DecState.new rate).displayBuffer := fun _ => ⟨rfl, rfl⟩
  obtain ⟨hf, hd⟩ := runAllW_inv3 bufs (DecState.new rate) hz hz2
  exact ⟨rfl, rfl, hf p, hd p⟩

end RatEval

end HackTV
